import Mathlib

/-!
Verification of the NETCONF delete-config operation handler
(`src/server/op_deleteconfig.c`, function `op_deleteconfig`).

The handler is embedded shallowly as a pure Lean function.  The request,
the session, and the sysrepo datastore state are explicit values; every
call to an external collaborator (sysrepo helpers, URL helpers) is both
recorded in a trace and resolved through an environment of outcome
oracles, so that theorems can quantify over all sequences of call
outcomes.  The helper functions `np2srv_sr_*`, `op_url_import` and
`op_url_init` live in `common.c` / `operations.h`, outside the provided
source; their effect on the reply is modelled from the spec (see the
doc comments on the corresponding parts of `Env` and the flows).
-/

namespace Netopeer2

/-! ## libyang / sysrepo constants (values from the C headers) -/

def LYS_CONTAINER : Nat := 0x0001
def LYS_CHOICE : Nat := 0x0002
def LYS_LEAF : Nat := 0x0004
def LYS_LEAFLIST : Nat := 0x0008
def LYS_LIST : Nat := 0x0010
def LYS_ANYXML : Nat := 0x0020
def LYS_NOTIF : Nat := 0x0080
def LYS_RPC : Nat := 0x0100
def LYS_USES : Nat := 0x1000

def LYS_CONFIG_W : Nat := 0x01
def LYS_CONFIG_R : Nat := 0x02

/-- `sr_datastore_t`: `SR_DS_STARTUP = 0`, matching the initializer
`sr_datastore_t target = 0;` in the handler. -/
def SR_DS_STARTUP : Nat := 0

def SR_DS_RUNNING : Nat := 1

def SR_DS_CANDIDATE : Nat := 2

/-! ## Data model -/

/-- A top-level schema node of a module (`struct lys_node`): its node-type
bit and its flags word. -/
structure LysNode where
  nodetype : Nat
  flags : Nat
deriving DecidableEq, Repr

/-- A schema module (`struct lys_module`): its name and the list of its
top-level data nodes (`mod->data` iterated by `LY_TREE_FOR`). -/
structure LysModule where
  name : String
  data : List LysNode
deriving DecidableEq, Repr

/-- A structured NETCONF error: its tag (kind) and message. -/
structure NcErr where
  tag : String
  msg : String
deriving DecidableEq, Repr

/-- A server reply (`struct nc_server_reply`): either an OK reply or an
error reply carrying a list of errors. -/
inductive Reply where
  | ok : Reply
  | err : List NcErr → Reply
deriving DecidableEq, Repr

def nc_server_reply_ok : Reply := Reply.ok

def nc_server_reply_err (e : NcErr) : Reply := Reply.err [e]

/-- `nc_server_reply_add_err`: append one more error to an (error) reply. -/
def nc_server_reply_add_err : Reply → NcErr → Reply
  | Reply.ok, e => Reply.err [e]
  | Reply.err l, e => Reply.err (l ++ [e])

/-- The request (`rpc`), already validated upstream: the tag name of the
single child of the `target` selector, and - when that child is the
`url` leaf - its `value_str` (`none` models a NULL pointer). -/
structure Request where
  dsname : String
  urlval : Option String
deriving DecidableEq, Repr

/-- The mutable per-session data (`struct np2_sessions`): the currently
bound datastore (`sessions->ds`). -/
structure Sessions where
  ds : Nat
deriving DecidableEq, Repr

/-- The sysrepo connection state: the committed store content (an
association list from module name to that module's configuration data,
abstracted as a number) and the uncommitted change buffer (the list of
module names whose domain-wide delete has been issued but not
committed). -/
structure SrState where
  committed : List (String × Nat)
  pending : List String
deriving DecidableEq, Repr

/-- One call to an external collaborator, recorded in order. -/
inductive Event where
  | switchDs (ds : Nat)
  | sessionRefresh
  | deleteItem (path : String)
  | discardChanges
  | commit
  | urlImport (url : String)
  | urlInit (url : String)
deriving DecidableEq, Repr

/-- Whether an event is a call against the internal datastore connection
(as opposed to the external-location client). -/
def Event.isStoreOp : Event → Bool
  | Event.switchDs _ => true
  | Event.sessionRefresh => true
  | Event.deleteItem _ => true
  | Event.discardChanges => true
  | Event.commit => true
  | Event.urlImport _ => false
  | Event.urlInit _ => false

/-- Outcome oracles for the external collaborator calls, plus the schema
registry.  Each `Option NcErr` field is the outcome of the corresponding
helper: `none` means success, `some e` means the helper failed and (as
modelled from the spec) placed the error `e` in the reply it produced. -/
structure Env where
  permDenied : Bool
  switchError : Option NcErr
  refreshError : Option NcErr
  deleteError : String → Option NcErr
  commitError : Option NcErr
  urlImportError : String → Option NcErr
  urlInitError : String → Option NcErr
  modules : List LysModule

/-- The complete observable outcome of one invocation: the reply
(`ereply`; `none` models the C variable still being NULL), the final
session data, the final sysrepo state, and the trace of collaborator
calls in issue order. -/
structure RunResult where
  ereply : Option Reply
  sessions : Sessions
  store : SrState
  trace : List Event
deriving DecidableEq, Repr

/-- Modelled from the spec: `np2srv_sr_check_exec_permission` is not
under `src/`; per the spec it fails with an Access-Denied error and the
handler performs no further work. -/
def accessDeniedErr : NcErr :=
  ⟨"access-denied", "Access to the requested operation is denied"⟩

/-! ## The handler -/

/-- The skip test of the per-module loop, negated: a top-level node
triggers the domain-wide delete iff its node type is one of container /
list / leaf-list / leaf / anyxml and it is not read-only
(`LYS_CONFIG_R`). -/
def nodeQualifies (n : LysNode) : Bool :=
  (n.nodetype &&& (LYS_CONTAINER ||| LYS_LIST ||| LYS_LEAFLIST ||| LYS_LEAF ||| LYS_ANYXML) != 0)
    && (n.flags &&& LYS_CONFIG_R == 0)

/-- Whether a module has any top-level configuration-bearing node, i.e.
whether the `LY_TREE_FOR` loop reaches the delete call for it. -/
def modHasConfigData (m : LysModule) : Bool := m.data.any nodeQualifies

/-- The path handed to `np2srv_sr_delete_item`:
`snprintf(path, 1024, "/%s:*", mod->name)`. -/
def deletePath (m : LysModule) : String := "/" ++ m.name ++ ":*"

/-- Removing every data node of one module from the committed content. -/
def clearDomain (name : String) (c : List (String × Nat)) : List (String × Nat) :=
  c.filter (fun p => p.1 != name)

/-- Modelled from the spec: `np2srv_sr_commit` applies the accumulated
uncommitted changes as one atomic transaction and empties the buffer. -/
def applyPending (st : SrState) : SrState :=
  { committed := st.pending.foldl (fun c d => clearDomain d c) st.committed,
    pending := [] }

/-- The per-module deletion loop (`while ((mod = ly_ctx_get_module_iter...`).
For each module, the first qualifying top-level node triggers one
domain-wide delete and a `break` to the next module; a failed delete
discards the uncommitted changes and aborts with that error.  Returns
the error reply (if any), the sysrepo state, and the extended trace. -/
def deleteLoop (env : Env) :
    List LysModule → SrState → List Event → Option Reply × SrState × List Event
  | [], st, tr => (none, st, tr)
  | m :: ms, st, tr =>
    if modHasConfigData m then
      match env.deleteError (deletePath m) with
      | some e =>
        (some (nc_server_reply_err e), { st with pending := [] },
          tr ++ [Event.deleteItem (deletePath m), Event.discardChanges])
      | none =>
        deleteLoop env ms { st with pending := st.pending ++ [m.name] }
          (tr ++ [Event.deleteItem (deletePath m)])
    else
      deleteLoop env ms st tr

/-- The part of the built-in-store branch after the switch: the refresh
(line 112), the deletion loop (lines 119-138) and the final commit
(lines 141-146). -/
def afterSwitch (env : Env) (sess : Sessions) (st : SrState) (tr : List Event) :
    RunResult :=
  match env.refreshError with
  | some e =>
    ⟨some (nc_server_reply_err e), sess, st, tr ++ [Event.sessionRefresh]⟩
  | none =>
    match deleteLoop env env.modules st (tr ++ [Event.sessionRefresh]) with
    | (some rep, st', tr') => ⟨some rep, sess, st', tr'⟩
    | (none, st', tr') =>
      match env.commitError with
      | some e =>
        ⟨some (nc_server_reply_err e), sess, { st' with pending := [] },
          tr' ++ [Event.commit, Event.discardChanges]⟩
      | none =>
        ⟨some nc_server_reply_ok, sess, applyPending st', tr' ++ [Event.commit]⟩

/-- The built-in-store branch of the handler: the store switch (lines
103-109), then `afterSwitch`. -/
def storeFlow (env : Env) (target : Nat) (sess : Sessions) (st : SrState)
    (tr : List Event) : RunResult :=
  if sess.ds != target then
    match env.switchError with
    | some e =>
      ⟨some (nc_server_reply_err e), sess, st, tr ++ [Event.switchDs target]⟩
    | none => afterSwitch env ⟨target⟩ st (tr ++ [Event.switchDs target])
  else
    afterSwitch env sess st tr

/-- The external-location branch (lines 81-100).  Modelled from the spec
for the parts outside `src/`: `op_url_import` fetches and strictly
parses the content at the URL; on failure it produces an error reply
carrying the underlying error (the handler then appends its own
Operation-Failed error to that reply via `nc_server_reply_add_err`);
`op_url_init` reinitializes the location and on failure produces an
error reply with the underlying error. -/
def urlFlow (env : Env) (u : String) (sess : Sessions) (st : SrState) : RunResult :=
  match env.urlImportError u with
  | some e0 =>
    ⟨some (nc_server_reply_add_err (nc_server_reply_err e0)
        ⟨"operation-failed", "File at url does not appear to contain a valid config"⟩),
      sess, st, [Event.urlImport u]⟩
  | none =>
    match env.urlInitError u with
    | some e1 =>
      ⟨some (nc_server_reply_err e1), sess, st, [Event.urlImport u, Event.urlInit u]⟩
    | none =>
      ⟨some nc_server_reply_ok, sess, st, [Event.urlImport u, Event.urlInit u]⟩

/-- The handler `op_deleteconfig`.  `urlCap` models the compile-time flag
`NP2SRV_ENABLED_URL_CAPABILITY` as a capability flag.  The permission
check runs first; then the target child's tag resolves the target
datastore (`target` stays `0` unless the tag is `startup`), the `url`
tag selecting the external-location branch; otherwise the built-in-store
flow runs. -/
def op_deleteconfig (urlCap : Bool) (env : Env) (rpc : Request)
    (sess : Sessions) (st : SrState) : RunResult :=
  if env.permDenied then
    ⟨some (nc_server_reply_err accessDeniedErr), sess, st, []⟩
  else
    let target : Nat := if rpc.dsname == "startup" then SR_DS_STARTUP else 0
    if rpc.dsname == "url" then
      if urlCap then
        match rpc.urlval with
        | some u => urlFlow env u sess st
        | none =>
          ⟨some (nc_server_reply_err ⟨"operation-failed", "Missing target url"⟩),
            sess, st, []⟩
      else
        ⟨some (nc_server_reply_err ⟨"operation-failed", "<url> source not supported"⟩),
          sess, st, []⟩
    else
      storeFlow env target sess st []

/-! ## Lemmas about the deletion loop -/

/-- Names of the modules that qualify for a domain-wide delete, in
registry order. -/
def qualNames (ms : List LysModule) : List String :=
  (ms.filter (fun m => modHasConfigData m)).map LysModule.name

/-- Erasing every qualifying module's data from the committed content. -/
def eraseAllQualifying (ms : List LysModule) (c : List (String × Nat)) :
    List (String × Nat) :=
  (qualNames ms).foldl (fun acc d => clearDomain d acc) c

theorem deleteLoop_committed (env : Env) :
    ∀ ms st tr, ((deleteLoop env ms st tr).2.1).committed = st.committed := by
  intro ms
  induction ms with
  | nil => intro st tr; rfl
  | cons m ms ih =>
    intro st tr
    simp only [deleteLoop]
    by_cases h : modHasConfigData m
    · rw [if_pos h]
      cases hd : env.deleteError (deletePath m) with
      | some e => simp
      | none => simp [ih]
    · rw [if_neg h]; exact ih st tr

theorem deleteLoop_none_pending (env : Env) :
    ∀ ms st tr, (deleteLoop env ms st tr).1 = none →
      (deleteLoop env ms st tr).2.1.pending = st.pending ++ qualNames ms := by
  intro ms
  induction ms with
  | nil => intro st tr _; simp [deleteLoop, qualNames]
  | cons m ms ih =>
    intro st tr hnone
    simp only [deleteLoop] at hnone ⊢
    by_cases h : modHasConfigData m
    · rw [if_pos h] at hnone ⊢
      cases hd : env.deleteError (deletePath m) with
      | some e => simp [hd] at hnone
      | none =>
        simp only [hd] at hnone ⊢
        rw [ih _ _ hnone]
        simp [qualNames, h]
    · rw [if_neg h] at hnone ⊢
      rw [ih _ _ hnone]
      simp [qualNames, h]

theorem deleteLoop_some_pending (env : Env) :
    ∀ ms st tr rep, (deleteLoop env ms st tr).1 = some rep →
      (deleteLoop env ms st tr).2.1.pending = [] := by
  intro ms
  induction ms with
  | nil => intro st tr rep h; simp [deleteLoop] at h
  | cons m ms ih =>
    intro st tr rep h
    simp only [deleteLoop] at h ⊢
    by_cases hq : modHasConfigData m
    · rw [if_pos hq] at h ⊢
      cases hd : env.deleteError (deletePath m) with
      | some e => simp [hd]
      | none =>
        simp only [hd] at h ⊢
        exact ih _ _ _ h
    · rw [if_neg hq] at h ⊢
      exact ih _ _ _ h

theorem deleteLoop_trace (env : Env) :
    ∀ ms st tr, ∃ d, (deleteLoop env ms st tr).2.2 = tr ++ d ∧
      ∀ e ∈ d, (∃ p, e = Event.deleteItem p) ∨ e = Event.discardChanges := by
  intro ms
  induction ms with
  | nil => intro st tr; exact ⟨[], by simp [deleteLoop], by simp⟩
  | cons m ms ih =>
    intro st tr
    simp only [deleteLoop]
    by_cases hq : modHasConfigData m
    · rw [if_pos hq]
      cases hd : env.deleteError (deletePath m) with
      | some e =>
        refine ⟨[Event.deleteItem (deletePath m), Event.discardChanges], by simp, ?_⟩
        intro e' he'
        simp at he'
        rcases he' with h | h
        · exact Or.inl ⟨_, h⟩
        · exact Or.inr h
      | none =>
        obtain ⟨d, hd2, hall⟩ := ih { st with pending := st.pending ++ [m.name] }
          (tr ++ [Event.deleteItem (deletePath m)])
        refine ⟨Event.deleteItem (deletePath m) :: d, by simp [hd2], ?_⟩
        intro e' he'
        rcases List.mem_cons.mp he' with h | h
        · exact Or.inl ⟨_, h⟩
        · exact hall _ h
    · rw [if_neg hq]
      exact ih st tr

theorem deleteLoop_none_deletes_ok (env : Env) :
    ∀ ms st tr, (deleteLoop env ms st tr).1 = none →
      ∀ p, Event.deleteItem p ∈ (deleteLoop env ms st tr).2.2 →
        Event.deleteItem p ∈ tr ∨ env.deleteError p = none := by
  intro ms
  induction ms with
  | nil => intro st tr _ p hp; simp [deleteLoop] at hp; exact Or.inl hp
  | cons m ms ih =>
    intro st tr hnone p hp
    simp only [deleteLoop] at hnone hp
    by_cases hq : modHasConfigData m
    · rw [if_pos hq] at hnone hp
      cases hd : env.deleteError (deletePath m) with
      | some e => simp [hd] at hnone
      | none =>
        simp only [hd] at hnone hp
        rcases ih _ _ hnone p hp with hmem | hok
        · simp at hmem
          rcases hmem with hmem | hmem
          · exact Or.inl hmem
          · subst hmem
            exact Or.inr hd
        · exact Or.inr hok
    · rw [if_neg hq] at hnone hp
      exact ih _ _ hnone p hp

theorem deletePath_inj {m1 m2 : LysModule} (h : deletePath m1 = deletePath m2) :
    m1.name = m2.name := by
  have hd := congrArg String.data h
  simp only [deletePath, String.data_append, List.append_assoc] at hd
  exact String.ext (List.append_cancel_right (List.append_cancel_left hd))

theorem deleteLoop_count_zero (env : Env) (p : String) :
    ∀ ms st tr, (∀ m ∈ ms, modHasConfigData m → deletePath m ≠ p) →
      List.count (Event.deleteItem p) (deleteLoop env ms st tr).2.2 =
        List.count (Event.deleteItem p) tr := by
  intro ms
  induction ms with
  | nil => intro st tr _; rfl
  | cons m ms ih =>
    intro st tr hno
    simp only [deleteLoop]
    by_cases hq : modHasConfigData m
    · rw [if_pos hq]
      have hne : deletePath m ≠ p := hno m (by simp) hq
      cases hd : env.deleteError (deletePath m) with
      | some e =>
        simp [List.count_append, List.count_cons, List.count_nil, hne]
      | none =>
        rw [ih _ _ (fun m' hm' => hno m' (List.mem_cons_of_mem _ hm'))]
        simp [List.count_append, List.count_cons, List.count_nil, hne]
    · rw [if_neg hq]
      exact ih _ _ (fun m' hm' => hno m' (List.mem_cons_of_mem _ hm'))

theorem deleteLoop_count_one (env : Env) (m : LysModule) :
    ∀ ms st tr, (ms.map LysModule.name).Nodup → m ∈ ms → modHasConfigData m →
      (∀ m' ∈ ms, modHasConfigData m' → env.deleteError (deletePath m') = none) →
      List.count (Event.deleteItem (deletePath m)) (deleteLoop env ms st tr).2.2 =
        List.count (Event.deleteItem (deletePath m)) tr + 1 := by
  intro ms
  induction ms with
  | nil => intro st tr _ hmem; simp at hmem
  | cons m0 ms ih =>
    intro st tr hnd hmem hq hok
    have hnd' : (ms.map LysModule.name).Nodup := (List.nodup_cons.mp hnd).2
    have hnotin : m0.name ∉ ms.map LysModule.name := (List.nodup_cons.mp hnd).1
    simp only [deleteLoop]
    by_cases hm0 : m0 = m
    · subst hm0
      rw [if_pos hq, hok m0 (by simp) hq]
      rw [deleteLoop_count_zero]
      · simp [List.count_append, List.count_cons, List.count_nil]
      · intro m' hm' _ hpeq
        exact hnotin (by
          rw [← deletePath_inj hpeq]
          exact List.mem_map_of_mem LysModule.name hm')
    · have hmem' : m ∈ ms := by
        rcases List.mem_cons.mp hmem with h | h
        · exact absurd h.symm hm0
        · exact h
      have hok' : ∀ m' ∈ ms, modHasConfigData m' → env.deleteError (deletePath m') = none :=
        fun m' hm' => hok m' (List.mem_cons_of_mem _ hm')
      have hne : deletePath m ≠ deletePath m0 := by
        intro hpeq
        exact hnotin (by
          rw [← deletePath_inj hpeq]
          exact List.mem_map_of_mem LysModule.name hmem')
      by_cases hq0 : modHasConfigData m0
      · rw [if_pos hq0, hok m0 (by simp) hq0]
        rw [ih _ _ hnd' hmem' hq hok']
        simp [List.count_append, List.count_cons, List.count_nil, hne]
      · rw [if_neg hq0]
        exact ih _ _ hnd' hmem' hq hok'

theorem deleteLoop_some_shape (env : Env) :
    ∀ ms st tr rep, (deleteLoop env ms st tr).1 = some rep →
      ∃ e, rep = nc_server_reply_err e := by
  intro ms
  induction ms with
  | nil => intro st tr rep h; simp [deleteLoop] at h
  | cons m ms ih =>
    intro st tr rep h
    simp only [deleteLoop] at h
    by_cases hq : modHasConfigData m
    · rw [if_pos hq] at h
      cases hd : env.deleteError (deletePath m) with
      | some e =>
        simp [hd] at h
        exact ⟨e, h.symm⟩
      | none =>
        rw [hd] at h
        exact ih _ _ _ h
    · rw [if_neg hq] at h
      exact ih _ _ _ h

/-! ## Branch characterizations of the handler -/

theorem afterSwitch_cases (env : Env) (sess : Sessions) (st : SrState) (tr : List Event) :
    (∃ e, env.refreshError = some e ∧
      afterSwitch env sess st tr =
        ⟨some (nc_server_reply_err e), sess, st, tr ++ [Event.sessionRefresh]⟩) ∨
    (env.refreshError = none ∧
      ((∃ rep st' tr',
          deleteLoop env env.modules st (tr ++ [Event.sessionRefresh]) = (some rep, st', tr') ∧
          afterSwitch env sess st tr = ⟨some rep, sess, st', tr'⟩) ∨
       (∃ st' tr',
          deleteLoop env env.modules st (tr ++ [Event.sessionRefresh]) = (none, st', tr') ∧
          ((∃ e, env.commitError = some e ∧
              afterSwitch env sess st tr =
                ⟨some (nc_server_reply_err e), sess, { st' with pending := [] },
                  tr' ++ [Event.commit, Event.discardChanges]⟩) ∨
           (env.commitError = none ∧
              afterSwitch env sess st tr =
                ⟨some nc_server_reply_ok, sess, applyPending st', tr' ++ [Event.commit]⟩))))) := by
  cases hr : env.refreshError with
  | some e => exact Or.inl ⟨e, rfl, by simp [afterSwitch, hr]⟩
  | none =>
    refine Or.inr ⟨rfl, ?_⟩
    rcases hl : deleteLoop env env.modules st (tr ++ [Event.sessionRefresh]) with ⟨orep, st', tr'⟩
    cases orep with
    | some rep =>
      exact Or.inl ⟨rep, st', tr', rfl, by simp [afterSwitch, hr, hl]⟩
    | none =>
      refine Or.inr ⟨st', tr', rfl, ?_⟩
      cases hc : env.commitError with
      | some e => exact Or.inl ⟨e, rfl, by simp [afterSwitch, hr, hl, hc]⟩
      | none => exact Or.inr ⟨rfl, by simp [afterSwitch, hr, hl, hc]⟩

theorem storeFlow_cases (env : Env) (target : Nat) (sess : Sessions) (st : SrState) :
    (∃ sess' tr0,
      ((sess.ds = target ∧ sess' = sess ∧ tr0 = ([] : List Event)) ∨
       (sess.ds ≠ target ∧ env.switchError = none ∧ sess' = ⟨target⟩ ∧
         tr0 = [Event.switchDs target])) ∧
      storeFlow env target sess st [] = afterSwitch env sess' st tr0) ∨
    (∃ e, sess.ds ≠ target ∧ env.switchError = some e ∧
      storeFlow env target sess st [] =
        ⟨some (nc_server_reply_err e), sess, st, [Event.switchDs target]⟩) := by
  by_cases hd : sess.ds = target
  · exact Or.inl ⟨sess, [], Or.inl ⟨hd, rfl, rfl⟩, by simp [storeFlow, hd]⟩
  · cases hs : env.switchError with
    | some e =>
      refine Or.inr ⟨e, hd, rfl, ?_⟩
      simp only [storeFlow]
      rw [if_pos (by simp [bne_iff_ne, hd]), hs]
      simp
    | none =>
      refine Or.inl ⟨⟨target⟩, [Event.switchDs target], Or.inr ⟨hd, rfl, rfl, rfl⟩, ?_⟩
      simp only [storeFlow]
      rw [if_pos (by simp [bne_iff_ne, hd]), hs]
      simp

theorem urlFlow_cases (env : Env) (u : String) (sess : Sessions) (st : SrState) :
    (∃ e0, env.urlImportError u = some e0 ∧
      urlFlow env u sess st =
        ⟨some (Reply.err [e0,
            ⟨"operation-failed", "File at url does not appear to contain a valid config"⟩]),
          sess, st, [Event.urlImport u]⟩) ∨
    (env.urlImportError u = none ∧
      ((∃ e1, env.urlInitError u = some e1 ∧
          urlFlow env u sess st =
            ⟨some (nc_server_reply_err e1), sess, st,
              [Event.urlImport u, Event.urlInit u]⟩) ∨
       (env.urlInitError u = none ∧
          urlFlow env u sess st =
            ⟨some nc_server_reply_ok, sess, st,
              [Event.urlImport u, Event.urlInit u]⟩))) := by
  cases hi : env.urlImportError u with
  | some e0 =>
    exact Or.inl ⟨e0, rfl, by
      simp [urlFlow, hi, nc_server_reply_add_err, nc_server_reply_err]⟩
  | none =>
    refine Or.inr ⟨rfl, ?_⟩
    cases hn : env.urlInitError u with
    | some e1 => exact Or.inl ⟨e1, rfl, by simp [urlFlow, hi, hn]⟩
    | none => exact Or.inr ⟨rfl, by simp [urlFlow, hi, hn]⟩

theorem afterSwitch_sessions (env : Env) (sess : Sessions) (st : SrState)
    (tr : List Event) : (afterSwitch env sess st tr).sessions = sess := by
  rcases afterSwitch_cases env sess st tr with
    ⟨e, _, hE⟩ | ⟨_, ⟨rep, st', tr', _, hE⟩ | ⟨st', tr', _, ⟨e, _, hE⟩ | ⟨_, hE⟩⟩⟩ <;>
    rw [hE]

theorem afterSwitch_trace (env : Env) (sess : Sessions) (st : SrState)
    (tr : List Event) :
    ∃ d, (afterSwitch env sess st tr).trace = tr ++ Event.sessionRefresh :: d ∧
      ∀ e ∈ d, (∃ p, e = Event.deleteItem p) ∨ e = Event.discardChanges ∨
        e = Event.commit := by
  rcases afterSwitch_cases env sess st tr with
    ⟨e, _, hE⟩ | ⟨_, ⟨rep, st', tr', hL, hE⟩ | ⟨st', tr', hL, ⟨e, _, hE⟩ | ⟨_, hE⟩⟩⟩
  · exact ⟨[], by rw [hE], by simp⟩
  · obtain ⟨d, hd, hall⟩ := deleteLoop_trace env env.modules st (tr ++ [Event.sessionRefresh])
    rw [hL] at hd
    refine ⟨d, by rw [hE]; simpa using hd, ?_⟩
    intro e' he'
    rcases hall e' he' with h | h
    · exact Or.inl h
    · exact Or.inr (Or.inl h)
  · obtain ⟨d, hd, hall⟩ := deleteLoop_trace env env.modules st (tr ++ [Event.sessionRefresh])
    rw [hL] at hd
    have hd' : tr' = tr ++ Event.sessionRefresh :: d := by simpa using hd
    refine ⟨d ++ [Event.commit, Event.discardChanges], by rw [hE]; simp [hd'], ?_⟩
    intro e' he'
    rcases List.mem_append.mp he' with h | h
    · rcases hall e' h with h' | h'
      · exact Or.inl h'
      · exact Or.inr (Or.inl h')
    · simp at h
      rcases h with h | h
      · exact Or.inr (Or.inr h)
      · exact Or.inr (Or.inl h)
  · obtain ⟨d, hd, hall⟩ := deleteLoop_trace env env.modules st (tr ++ [Event.sessionRefresh])
    rw [hL] at hd
    have hd' : tr' = tr ++ Event.sessionRefresh :: d := by simpa using hd
    refine ⟨d ++ [Event.commit], by rw [hE]; simp [hd'], ?_⟩
    intro e' he'
    rcases List.mem_append.mp he' with h | h
    · rcases hall e' h with h' | h'
      · exact Or.inl h'
      · exact Or.inr (Or.inl h')
    · simp at h
      exact Or.inr (Or.inr h)

theorem op_deleteconfig_cases (urlCap : Bool) (env : Env) (rpc : Request)
    (sess : Sessions) (st : SrState) :
    (env.permDenied = true ∧
      op_deleteconfig urlCap env rpc sess st =
        ⟨some (nc_server_reply_err accessDeniedErr), sess, st, []⟩) ∨
    (env.permDenied = false ∧ rpc.dsname = "url" ∧ urlCap = true ∧
      ∃ u, rpc.urlval = some u ∧
        op_deleteconfig urlCap env rpc sess st = urlFlow env u sess st) ∨
    (env.permDenied = false ∧ rpc.dsname = "url" ∧ urlCap = true ∧ rpc.urlval = none ∧
      op_deleteconfig urlCap env rpc sess st =
        ⟨some (nc_server_reply_err ⟨"operation-failed", "Missing target url"⟩),
          sess, st, []⟩) ∨
    (env.permDenied = false ∧ rpc.dsname = "url" ∧ urlCap = false ∧
      op_deleteconfig urlCap env rpc sess st =
        ⟨some (nc_server_reply_err ⟨"operation-failed", "<url> source not supported"⟩),
          sess, st, []⟩) ∨
    (env.permDenied = false ∧ rpc.dsname ≠ "url" ∧
      op_deleteconfig urlCap env rpc sess st =
        storeFlow env (if rpc.dsname == "startup" then SR_DS_STARTUP else 0) sess st []) := by
  by_cases hp : env.permDenied = true
  · exact Or.inl ⟨hp, by simp [op_deleteconfig, hp]⟩
  · have hp' : env.permDenied = false := by
      cases h : env.permDenied
      · rfl
      · exact absurd h hp
    by_cases hu : rpc.dsname = "url"
    · cases hc : urlCap with
      | true =>
        cases hv : rpc.urlval with
        | some u =>
          exact Or.inr (Or.inl ⟨hp', hu, rfl, u, rfl, by
            simp [op_deleteconfig, hp', hu, hv]⟩)
        | none =>
          exact Or.inr (Or.inr (Or.inl ⟨hp', hu, rfl, rfl, by
            simp [op_deleteconfig, hp', hu, hv]⟩))
      | false =>
        exact Or.inr (Or.inr (Or.inr (Or.inl ⟨hp', hu, rfl, by
          simp [op_deleteconfig, hp', hu]⟩)))
    · refine Or.inr (Or.inr (Or.inr (Or.inr ⟨hp', hu, ?_⟩)))
      simp only [op_deleteconfig, hp', if_false, Bool.false_eq_true]
      rw [if_neg (by simp [beq_iff_eq, hu])]

theorem op_deleteconfig_store (urlCap : Bool) (env : Env) (rpc : Request)
    (sess : Sessions) (st : SrState) (hp : env.permDenied = false)
    (hd : rpc.dsname ≠ "url") :
    op_deleteconfig urlCap env rpc sess st =
      storeFlow env SR_DS_STARTUP sess st [] := by
  simp only [op_deleteconfig, hp, Bool.false_eq_true, if_false]
  rw [if_neg (by simp [beq_iff_eq, hd])]
  have ht : (if rpc.dsname == "startup" then SR_DS_STARTUP else 0) = SR_DS_STARTUP := by
    unfold SR_DS_STARTUP
    split <;> rfl
  rw [ht]

theorem op_deleteconfig_count_zero (urlCap : Bool) (env : Env) (rpc : Request)
    (sess : Sessions) (st : SrState) (p : String)
    (hno : ∀ m' ∈ env.modules, modHasConfigData m' → deletePath m' ≠ p) :
    List.count (Event.deleteItem p) (op_deleteconfig urlCap env rpc sess st).trace = 0 := by
  have hafter : ∀ sess' st' tr0, (∀ q, Event.deleteItem q ∉ tr0) →
      List.count (Event.deleteItem p) (afterSwitch env sess' st' tr0).trace = 0 := by
    intro sess' st' tr0 htr0
    have htr0c : List.count (Event.deleteItem p)
        (tr0 ++ [Event.sessionRefresh]) = 0 := by
      rw [List.count_eq_zero]
      intro hmem
      rcases List.mem_append.mp hmem with h | h
      · exact htr0 p h
      · simp at h
    rcases afterSwitch_cases env sess' st' tr0 with
      ⟨e, _, hE⟩ | ⟨_, ⟨rep, stL, trL, hL, hE⟩ | ⟨stL, trL, hL, ⟨e, _, hE⟩ | ⟨_, hE⟩⟩⟩
    · rw [hE]
      exact htr0c
    · rw [hE]
      have := deleteLoop_count_zero env p env.modules st'
        (tr0 ++ [Event.sessionRefresh]) hno
      rw [hL] at this
      rw [this]
      exact htr0c
    · rw [hE]
      have := deleteLoop_count_zero env p env.modules st'
        (tr0 ++ [Event.sessionRefresh]) hno
      rw [hL] at this
      simp only [RunResult.trace, List.count_append, this, htr0c]
      simp
    · rw [hE]
      have := deleteLoop_count_zero env p env.modules st'
        (tr0 ++ [Event.sessionRefresh]) hno
      rw [hL] at this
      simp only [RunResult.trace, List.count_append, this, htr0c]
      simp
  rcases op_deleteconfig_cases urlCap env rpc sess st with
    ⟨_, hE⟩ | ⟨_, _, _, u, _, hE⟩ | ⟨_, _, _, _, hE⟩ | ⟨_, _, _, hE⟩ | ⟨_, _, hE⟩
  · rw [hE]; rfl
  · rw [hE]
    rcases urlFlow_cases env u sess st with
      ⟨e0, _, hU⟩ | ⟨_, ⟨e1, _, hU⟩ | ⟨_, hU⟩⟩ <;> rw [hU] <;> rfl
  · rw [hE]; rfl
  · rw [hE]; rfl
  · rw [hE]
    rcases storeFlow_cases env (if rpc.dsname == "startup" then SR_DS_STARTUP else 0)
        sess st with ⟨sess', tr0, hcase, hS⟩ | ⟨e, _, _, hS⟩
    · rw [hS]
      apply hafter
      rcases hcase with ⟨_, _, h0⟩ | ⟨_, _, _, h0⟩ <;> subst h0 <;> intro q hq <;> simp at hq
    · rw [hS]
      rfl

/-! ## Sample data for witnesses and counterexamples -/

/-- A sample environment in which every collaborator call succeeds and the
registry has one configuration-bearing module and one state-only module. -/
def envAllOk : Env :=
  { permDenied := false, switchError := none, refreshError := none,
    deleteError := fun _ => none, commitError := none,
    urlImportError := fun _ => none, urlInitError := fun _ => none,
    modules := [⟨"ietf-interfaces", [⟨LYS_CONTAINER, LYS_CONFIG_W⟩]⟩,
                ⟨"state-mod", [⟨LYS_CONTAINER, LYS_CONFIG_R⟩]⟩] }

/-- A sample environment whose URL import always fails. -/
def envUrlUnreachable : Env :=
  { envAllOk with urlImportError := fun _ => some ⟨"operation-failed", "url unreachable"⟩ }

/-! ## Claims -/

/-- C2: when the caller lacks execute permission for the delete-config
operation, the handler returns the Access-Denied error immediately: the
session and store are unchanged and the trace of collaborator calls is
empty (no target resolution effects, no switch, refresh, delete or
commit). -/
theorem C2_permission_short_circuit (urlCap : Bool) (env : Env) (rpc : Request)
    (sess : Sessions) (st : SrState) (h : env.permDenied = true) :
    op_deleteconfig urlCap env rpc sess st =
      ⟨some (nc_server_reply_err accessDeniedErr), sess, st, []⟩ := by
  simp [op_deleteconfig, h]

theorem C2_permission_short_circuit_witness :
    ({ envAllOk with permDenied := true } : Env).permDenied = true ∧
      op_deleteconfig true { envAllOk with permDenied := true } ⟨"startup", none⟩
          ⟨1⟩ ⟨[("ietf-interfaces", 5)], []⟩ =
        ⟨some (nc_server_reply_err accessDeniedErr), ⟨1⟩,
          ⟨[("ietf-interfaces", 5)], []⟩, []⟩ :=
  ⟨rfl, C2_permission_short_circuit true _ _ _ _ rfl⟩

/-- C3 (amended): with the URL capability compiled in, the handler fails
with Operation-Failed / "Missing target url" exactly when the target url
leaf's value string is absent (a NULL `value_str`); the trace stays
empty, so no fetch is attempted.  An empty string is a non-NULL value
and is not rejected (see the counterexample). -/
theorem C3_missing_url (env : Env) (rpc : Request) (sess : Sessions) (st : SrState)
    (hp : env.permDenied = false) (hd : rpc.dsname = "url")
    (hv : rpc.urlval = none) :
    op_deleteconfig true env rpc sess st =
      ⟨some (nc_server_reply_err ⟨"operation-failed", "Missing target url"⟩),
        sess, st, []⟩ := by
  simp [op_deleteconfig, hp, hd, hv]

theorem C3_missing_url_witness :
    envAllOk.permDenied = false ∧ ("url" : String) = "url" ∧
      (none : Option String) = none ∧
      op_deleteconfig true envAllOk ⟨"url", none⟩ ⟨0⟩ ⟨[], []⟩ =
        ⟨some (nc_server_reply_err ⟨"operation-failed", "Missing target url"⟩),
          ⟨0⟩, ⟨[], []⟩, []⟩ :=
  ⟨rfl, rfl, rfl, C3_missing_url envAllOk ⟨"url", none⟩ ⟨0⟩ ⟨[], []⟩ rfl rfl rfl⟩

/-- C3 counterexample: a request whose url leaf carries the empty string
is not rejected with "Missing target url"; the handler proceeds to fetch
the (empty) location and, when import and reinitialization succeed,
reports success. -/
theorem C3_counterexample :
    (op_deleteconfig true envAllOk ⟨"url", some ""⟩ ⟨0⟩ ⟨[], []⟩).ereply =
        some Reply.ok ∧
      (op_deleteconfig true envAllOk ⟨"url", some ""⟩ ⟨0⟩ ⟨[], []⟩).trace =
        [Event.urlImport "", Event.urlInit ""] :=
  ⟨rfl, rfl⟩

/-- C4: with the URL capability compiled out, a request targeting `url`
yields Operation-Failed / "&lt;url&gt; source not supported" with an empty
trace: no store switch, refresh, delete or commit is performed and the
session and store are unchanged. -/
theorem C4_capability_gating (env : Env) (rpc : Request) (sess : Sessions)
    (st : SrState) (hp : env.permDenied = false) (hd : rpc.dsname = "url") :
    op_deleteconfig false env rpc sess st =
      ⟨some (nc_server_reply_err
          ⟨"operation-failed", "<url> source not supported"⟩), sess, st, []⟩ := by
  simp [op_deleteconfig, hp, hd]

theorem C4_capability_gating_witness :
    envAllOk.permDenied = false ∧ ("url" : String) = "url" ∧
      op_deleteconfig false envAllOk ⟨"url", some "ftp://h/c.xml"⟩ ⟨2⟩
          ⟨[("ietf-interfaces", 1)], []⟩ =
        ⟨some (nc_server_reply_err
            ⟨"operation-failed", "<url> source not supported"⟩), ⟨2⟩,
          ⟨[("ietf-interfaces", 1)], []⟩, []⟩ :=
  ⟨rfl, rfl, C4_capability_gating envAllOk ⟨"url", some "ftp://h/c.xml"⟩ ⟨2⟩
    ⟨[("ietf-interfaces", 1)], []⟩ rfl rfl⟩

/-- C5 (amended): on the external-location path, when the import of the
content at the URL fails, the handler appends its Operation-Failed /
"File at url does not appear to contain a valid config" error to the
error reply produced by the import helper (so the reply carries that
helper's error followed by that error, not a single error), proceeds no
further, and performs no store operation: the trace is just the import
call and session and store are unchanged. -/
theorem C5_import_failure (env : Env) (rpc : Request) (sess : Sessions)
    (st : SrState) (u : String) (e0 : NcErr) (hp : env.permDenied = false)
    (hd : rpc.dsname = "url") (hv : rpc.urlval = some u)
    (hi : env.urlImportError u = some e0) :
    op_deleteconfig true env rpc sess st =
      ⟨some (Reply.err [e0,
          ⟨"operation-failed", "File at url does not appear to contain a valid config"⟩]),
        sess, st, [Event.urlImport u]⟩ := by
  simp [op_deleteconfig, hp, hd, hv, urlFlow, hi, nc_server_reply_add_err,
    nc_server_reply_err]

theorem C5_import_failure_witness :
    envUrlUnreachable.permDenied = false ∧ ("url" : String) = "url" ∧
      (some "http://h/c.xml" : Option String) = some "http://h/c.xml" ∧
      envUrlUnreachable.urlImportError "http://h/c.xml" =
        some ⟨"operation-failed", "url unreachable"⟩ ∧
      op_deleteconfig true envUrlUnreachable ⟨"url", some "http://h/c.xml"⟩ ⟨0⟩
          ⟨[], []⟩ =
        ⟨some (Reply.err [⟨"operation-failed", "url unreachable"⟩,
            ⟨"operation-failed", "File at url does not appear to contain a valid config"⟩]),
          ⟨0⟩, ⟨[], []⟩, [Event.urlImport "http://h/c.xml"]⟩ :=
  ⟨rfl, rfl, rfl, rfl, C5_import_failure envUrlUnreachable
    ⟨"url", some "http://h/c.xml"⟩ ⟨0⟩ ⟨[], []⟩ "http://h/c.xml"
    ⟨"operation-failed", "url unreachable"⟩ rfl rfl rfl rfl⟩

/-- C5 counterexample: when the import fails, the reply is not the single
Operation-Failed error with message "File at url does not appear to
contain a valid config": the import helper's own error comes first in
the error list (the handler uses `nc_server_reply_add_err` on the
helper's reply). -/
theorem C5_counterexample :
    (op_deleteconfig true envUrlUnreachable ⟨"url", some "http://h/c.xml"⟩ ⟨0⟩
        ⟨[], []⟩).ereply =
      some (Reply.err [⟨"operation-failed", "url unreachable"⟩,
        ⟨"operation-failed", "File at url does not appear to contain a valid config"⟩]) ∧
    (op_deleteconfig true envUrlUnreachable ⟨"url", some "http://h/c.xml"⟩ ⟨0⟩
        ⟨[], []⟩).ereply ≠
      some (Reply.err
        [⟨"operation-failed", "File at url does not appear to contain a valid config"⟩]) := by
  exact ⟨rfl, by decide⟩

/-- C9: whenever the resolved target is an external location, the handler
never touches the internal datastore: session and store are unchanged,
every traced call is a URL-client call (no switch, refresh, delete,
discard or commit), and the trace is the import alone or the import
followed by the reinitialization of the location. -/
theorem C9_url_frame (env : Env) (rpc : Request) (sess : Sessions) (st : SrState)
    (u : String) (hp : env.permDenied = false) (hd : rpc.dsname = "url")
    (hv : rpc.urlval = some u) :
    (op_deleteconfig true env rpc sess st).sessions = sess ∧
    (op_deleteconfig true env rpc sess st).store = st ∧
    (∀ e ∈ (op_deleteconfig true env rpc sess st).trace, e.isStoreOp = false) ∧
    ((op_deleteconfig true env rpc sess st).trace = [Event.urlImport u] ∨
      (op_deleteconfig true env rpc sess st).trace =
        [Event.urlImport u, Event.urlInit u]) := by
  have hE : op_deleteconfig true env rpc sess st = urlFlow env u sess st := by
    simp [op_deleteconfig, hp, hd, hv]
  rw [hE]
  rcases urlFlow_cases env u sess st with
    ⟨e0, _, hU⟩ | ⟨_, ⟨e1, _, hU⟩ | ⟨_, hU⟩⟩ <;>
    rw [hU] <;>
    exact ⟨rfl, rfl, by simp [Event.isStoreOp], by simp⟩

theorem C9_url_frame_witness :
    envAllOk.permDenied = false ∧ ("url" : String) = "url" ∧
      (some "http://h/c.xml" : Option String) = some "http://h/c.xml" ∧
      ((op_deleteconfig true envAllOk ⟨"url", some "http://h/c.xml"⟩ ⟨1⟩
          ⟨[("ietf-interfaces", 7)], []⟩).sessions = ⟨1⟩ ∧
       (op_deleteconfig true envAllOk ⟨"url", some "http://h/c.xml"⟩ ⟨1⟩
          ⟨[("ietf-interfaces", 7)], []⟩).store = ⟨[("ietf-interfaces", 7)], []⟩ ∧
       (∀ e ∈ (op_deleteconfig true envAllOk ⟨"url", some "http://h/c.xml"⟩ ⟨1⟩
          ⟨[("ietf-interfaces", 7)], []⟩).trace, e.isStoreOp = false) ∧
       ((op_deleteconfig true envAllOk ⟨"url", some "http://h/c.xml"⟩ ⟨1⟩
          ⟨[("ietf-interfaces", 7)], []⟩).trace = [Event.urlImport "http://h/c.xml"] ∨
        (op_deleteconfig true envAllOk ⟨"url", some "http://h/c.xml"⟩ ⟨1⟩
          ⟨[("ietf-interfaces", 7)], []⟩).trace =
          [Event.urlImport "http://h/c.xml", Event.urlInit "http://h/c.xml"])) :=
  ⟨rfl, rfl, rfl, C9_url_frame envAllOk ⟨"url", some "http://h/c.xml"⟩ ⟨1⟩
    ⟨[("ietf-interfaces", 7)], []⟩ "http://h/c.xml" rfl rfl rfl⟩

/-- C10: when the target selector's child tag is neither "startup" nor
"url", the `target` variable keeps its initialized value `0`, which is
`SR_DS_STARTUP`, and the whole invocation behaves exactly as if the tag
had been "startup": the handler proceeds to switch to and erase the
startup datastore. -/
theorem C10_default_target (urlCap : Bool) (env : Env) (rpc : Request)
    (sess : Sessions) (st : SrState) (h1 : rpc.dsname ≠ "startup")
    (h2 : rpc.dsname ≠ "url") :
    (if rpc.dsname == "startup" then SR_DS_STARTUP else 0) = SR_DS_STARTUP ∧
    op_deleteconfig urlCap env rpc sess st =
      op_deleteconfig urlCap env ⟨"startup", rpc.urlval⟩ sess st := by
  constructor
  · rw [if_neg (by simp [beq_iff_eq, h1])]
    rfl
  · by_cases hp : env.permDenied = true
    · simp [op_deleteconfig, hp]
    · have hp' : env.permDenied = false := by
        cases h : env.permDenied
        · rfl
        · exact absurd h hp
      rw [op_deleteconfig_store urlCap env rpc sess st hp' h2,
        op_deleteconfig_store urlCap env ⟨"startup", rpc.urlval⟩ sess st hp'
          (show ("startup" : String) ≠ "url" by decide)]

theorem C10_default_target_witness :
    ("running" : String) ≠ "startup" ∧ ("running" : String) ≠ "url" ∧
      ((if ("running" : String) == "startup" then SR_DS_STARTUP else 0) =
          SR_DS_STARTUP ∧
       op_deleteconfig true envAllOk ⟨"running", none⟩ ⟨1⟩
          ⟨[("ietf-interfaces", 1)], []⟩ =
         op_deleteconfig true envAllOk ⟨"startup", none⟩ ⟨1⟩
          ⟨[("ietf-interfaces", 1)], []⟩) :=
  ⟨by decide, by decide, C10_default_target true envAllOk ⟨"running", none⟩ ⟨1⟩
    ⟨[("ietf-interfaces", 1)], []⟩ (by decide) (by decide)⟩

/-- C8: every invocation, on every branch, terminates with exactly one
reply: the handler's `ereply` is always `some` reply (never the NULL it
was initialized to), and that reply is either the success
acknowledgement or an error reply carrying at least one error.  The
`Reply` type makes success and error mutually exclusive, so a reply is
never both. -/
theorem C8_exactly_one_reply (urlCap : Bool) (env : Env) (rpc : Request)
    (sess : Sessions) (st : SrState) :
    ∃ rep, (op_deleteconfig urlCap env rpc sess st).ereply = some rep ∧
      (rep = Reply.ok ∨ ∃ es, es ≠ [] ∧ rep = Reply.err es) := by
  rcases op_deleteconfig_cases urlCap env rpc sess st with
    ⟨_, hE⟩ | ⟨_, _, _, u, _, hE⟩ | ⟨_, _, _, _, hE⟩ | ⟨_, _, _, hE⟩ | ⟨_, _, hE⟩
  · exact ⟨Reply.err [accessDeniedErr], by rw [hE]; try rfl,
      Or.inr ⟨[accessDeniedErr], by simp, rfl⟩⟩
  · rw [hE]
    rcases urlFlow_cases env u sess st with
      ⟨e0, _, hU⟩ | ⟨_, ⟨e1, _, hU⟩ | ⟨_, hU⟩⟩
    · exact ⟨Reply.err [e0,
          ⟨"operation-failed", "File at url does not appear to contain a valid config"⟩],
        by rw [hU]; try rfl,
        Or.inr ⟨[e0,
          ⟨"operation-failed", "File at url does not appear to contain a valid config"⟩],
          by simp, rfl⟩⟩
    · exact ⟨Reply.err [e1], by rw [hU]; try rfl, Or.inr ⟨[e1], by simp, rfl⟩⟩
    · exact ⟨Reply.ok, by rw [hU]; try rfl, Or.inl rfl⟩
  · exact ⟨Reply.err [⟨"operation-failed", "Missing target url"⟩], by rw [hE]; try rfl,
      Or.inr ⟨[⟨"operation-failed", "Missing target url"⟩], by simp, rfl⟩⟩
  · exact ⟨Reply.err [⟨"operation-failed", "<url> source not supported"⟩],
      by rw [hE]; try rfl,
      Or.inr ⟨[⟨"operation-failed", "<url> source not supported"⟩], by simp, rfl⟩⟩
  · rw [hE]
    rcases storeFlow_cases env (if rpc.dsname == "startup" then SR_DS_STARTUP else 0)
        sess st with ⟨sess', tr0, _, hS⟩ | ⟨e, _, _, hS⟩
    · rw [hS]
      rcases afterSwitch_cases env sess' st tr0 with
        ⟨e, _, hA⟩ | ⟨_, ⟨rep, stL, trL, hL, hA⟩ | ⟨stL, trL, hL, ⟨e, _, hA⟩ | ⟨_, hA⟩⟩⟩
      · exact ⟨Reply.err [e], by rw [hA]; try rfl, Or.inr ⟨[e], by simp, rfl⟩⟩
      · obtain ⟨e, he⟩ := deleteLoop_some_shape env env.modules st
          (tr0 ++ [Event.sessionRefresh]) rep (by rw [hL])
        exact ⟨rep, by rw [hA], Or.inr ⟨[e], by simp, by rw [he]; rfl⟩⟩
      · exact ⟨Reply.err [e], by rw [hA]; try rfl, Or.inr ⟨[e], by simp, rfl⟩⟩
      · exact ⟨Reply.ok, by rw [hA]; try rfl, Or.inl rfl⟩
    · exact ⟨Reply.err [e], by rw [hS]; try rfl, Or.inr ⟨[e], by simp, rfl⟩⟩

/-- C7: the store-switcher contract for built-in targets (the resolved
target is always the startup store here): when the session is already
bound to the target no switch call is issued; when it differs a switch
is issued, switch failure aborts with the underlying error leaving the
bound-store field unchanged, and switch success rebinds the session to
the target; in every non-error case the refresh call follows before any
delete, and refresh failure aborts with the underlying error before any
delete. -/
theorem C7_store_switcher (urlCap : Bool) (env : Env) (rpc : Request)
    (sess : Sessions) (st : SrState) (hp : env.permDenied = false)
    (hd : rpc.dsname ≠ "url") :
    (sess.ds = SR_DS_STARTUP →
      (∀ t, Event.switchDs t ∉ (op_deleteconfig urlCap env rpc sess st).trace) ∧
      (op_deleteconfig urlCap env rpc sess st).sessions = sess) ∧
    (sess.ds ≠ SR_DS_STARTUP →
      Event.switchDs SR_DS_STARTUP ∈ (op_deleteconfig urlCap env rpc sess st).trace ∧
      (∀ e, env.switchError = some e →
        (op_deleteconfig urlCap env rpc sess st).ereply =
          some (nc_server_reply_err e) ∧
        (op_deleteconfig urlCap env rpc sess st).sessions = sess ∧
        (op_deleteconfig urlCap env rpc sess st).trace =
          [Event.switchDs SR_DS_STARTUP]) ∧
      (env.switchError = none →
        (op_deleteconfig urlCap env rpc sess st).sessions = ⟨SR_DS_STARTUP⟩)) ∧
    ((sess.ds = SR_DS_STARTUP ∨ env.switchError = none) →
      (∃ tr1 tr2, (op_deleteconfig urlCap env rpc sess st).trace =
          tr1 ++ Event.sessionRefresh :: tr2 ∧ ∀ p, Event.deleteItem p ∉ tr1) ∧
      (∀ e, env.refreshError = some e →
        (op_deleteconfig urlCap env rpc sess st).ereply =
          some (nc_server_reply_err e) ∧
        ∀ p, Event.deleteItem p ∉ (op_deleteconfig urlCap env rpc sess st).trace)) := by
  rw [op_deleteconfig_store urlCap env rpc sess st hp hd]
  rcases storeFlow_cases env SR_DS_STARTUP sess st with
    ⟨sess', tr0, hcase, hS⟩ | ⟨e, hne, hsw, hS⟩
  · rcases hcase with ⟨hds, hsess, htr0⟩ | ⟨hne, hsw, hsess, htr0⟩
    · rw [hsess, htr0] at hS
      obtain ⟨d, htr, hall⟩ := afterSwitch_trace env sess st []
      refine ⟨fun _ => ⟨?_, by rw [hS]; exact afterSwitch_sessions env sess st []⟩,
        fun hne => (hne hds).elim, fun _ => ⟨⟨[], d, by rw [hS, htr]; try rfl, by simp⟩, ?_⟩⟩
      · intro t ht
        rw [hS, htr] at ht
        simp only [List.nil_append, List.mem_cons] at ht
        rcases ht with h | h
        · exact Event.noConfusion h
        · rcases hall _ h with ⟨p, h'⟩ | h' | h' <;> exact Event.noConfusion h'
      · intro e hre
        rcases afterSwitch_cases env sess st [] with
          ⟨e', hre', hA⟩ | ⟨hre', _⟩
        · rw [hre'] at hre
          cases hre
          refine ⟨by rw [hS, hA], ?_⟩
          intro p hp'
          rw [hS, hA] at hp'
          simp at hp'
        · rw [hre'] at hre
          cases hre
    · subst hsess; subst htr0
      obtain ⟨d, htr, hall⟩ := afterSwitch_trace env ⟨SR_DS_STARTUP⟩ st
        [Event.switchDs SR_DS_STARTUP]
      refine ⟨fun hds => (hne hds).elim,
        fun _ => ⟨by rw [hS, htr]; simp, ?_, fun _ => by
          rw [hS]
          exact afterSwitch_sessions env ⟨SR_DS_STARTUP⟩ st _⟩,
        fun _ => ⟨⟨[Event.switchDs SR_DS_STARTUP], d, by rw [hS, htr]; try rfl, by simp⟩, ?_⟩⟩
      · intro e he
        rw [hsw] at he
        cases he
      · intro e hre
        rcases afterSwitch_cases env ⟨SR_DS_STARTUP⟩ st
            [Event.switchDs SR_DS_STARTUP] with ⟨e', hre', hA⟩ | ⟨hre', _⟩
        · rw [hre'] at hre
          cases hre
          refine ⟨by rw [hS, hA], ?_⟩
          intro p hp'
          rw [hS, hA] at hp'
          simp at hp'
        · rw [hre'] at hre
          cases hre
  · refine ⟨fun hds => (hne hds).elim,
      fun _ => ⟨by rw [hS]; simp, ?_, ?_⟩, fun hor => ?_⟩
    · intro e' he'
      rw [hsw] at he'
      cases he'
      exact ⟨by rw [hS], by rw [hS], by rw [hS]⟩
    · intro h
      rw [hsw] at h
      cases h
    · rcases hor with hds | hnone
      · exact (hne hds).elim
      · rw [hsw] at hnone
        cases hnone

theorem C7_store_switcher_witness :
    envAllOk.permDenied = false ∧ ("startup" : String) ≠ "url" ∧
      (((⟨1⟩ : Sessions).ds = SR_DS_STARTUP →
        (∀ t, Event.switchDs t ∉ (op_deleteconfig true envAllOk ⟨"startup", none⟩
            ⟨1⟩ ⟨[("ietf-interfaces", 5)], []⟩).trace) ∧
        (op_deleteconfig true envAllOk ⟨"startup", none⟩ ⟨1⟩
            ⟨[("ietf-interfaces", 5)], []⟩).sessions = ⟨1⟩) ∧
       ((⟨1⟩ : Sessions).ds ≠ SR_DS_STARTUP →
        Event.switchDs SR_DS_STARTUP ∈ (op_deleteconfig true envAllOk
            ⟨"startup", none⟩ ⟨1⟩ ⟨[("ietf-interfaces", 5)], []⟩).trace ∧
        (∀ e, envAllOk.switchError = some e →
          (op_deleteconfig true envAllOk ⟨"startup", none⟩ ⟨1⟩
              ⟨[("ietf-interfaces", 5)], []⟩).ereply = some (nc_server_reply_err e) ∧
          (op_deleteconfig true envAllOk ⟨"startup", none⟩ ⟨1⟩
              ⟨[("ietf-interfaces", 5)], []⟩).sessions = ⟨1⟩ ∧
          (op_deleteconfig true envAllOk ⟨"startup", none⟩ ⟨1⟩
              ⟨[("ietf-interfaces", 5)], []⟩).trace = [Event.switchDs SR_DS_STARTUP]) ∧
        (envAllOk.switchError = none →
          (op_deleteconfig true envAllOk ⟨"startup", none⟩ ⟨1⟩
              ⟨[("ietf-interfaces", 5)], []⟩).sessions = ⟨SR_DS_STARTUP⟩)) ∧
       (((⟨1⟩ : Sessions).ds = SR_DS_STARTUP ∨ envAllOk.switchError = none) →
        (∃ tr1 tr2, (op_deleteconfig true envAllOk ⟨"startup", none⟩ ⟨1⟩
              ⟨[("ietf-interfaces", 5)], []⟩).trace =
            tr1 ++ Event.sessionRefresh :: tr2 ∧ ∀ p, Event.deleteItem p ∉ tr1) ∧
        (∀ e, envAllOk.refreshError = some e →
          (op_deleteconfig true envAllOk ⟨"startup", none⟩ ⟨1⟩
              ⟨[("ietf-interfaces", 5)], []⟩).ereply = some (nc_server_reply_err e) ∧
          ∀ p, Event.deleteItem p ∉ (op_deleteconfig true envAllOk
              ⟨"startup", none⟩ ⟨1⟩ ⟨[("ietf-interfaces", 5)], []⟩).trace))) :=
  ⟨rfl, by decide, C7_store_switcher true envAllOk ⟨"startup", none⟩ ⟨1⟩
    ⟨[("ietf-interfaces", 5)], []⟩ rfl (by decide)⟩

/-- C6 (amended): assuming distinct module names in the registry, a
domain with no writable top-level node of kind container / list /
leaf-list / leaf / anyxml never receives a domain-wide delete call, on
any branch and for any sequence of call outcomes; a domain with at least
one such node receives exactly one domain-wide delete ("/&lt;domain&gt;:*")
provided the run reaches the deletion loop (permission granted, built-in
target, switch and refresh succeed) and no per-domain delete fails - on
a delete failure the loop aborts, and qualifying domains after the
failing one receive no delete call (see the counterexample). -/
theorem C6_domain_skip (urlCap : Bool) (env : Env) (rpc : Request)
    (sess : Sessions) (st : SrState) (m : LysModule)
    (hnd : (env.modules.map LysModule.name).Nodup) (hm : m ∈ env.modules) :
    (modHasConfigData m = false →
      List.count (Event.deleteItem (deletePath m))
        (op_deleteconfig urlCap env rpc sess st).trace = 0) ∧
    (modHasConfigData m = true → env.permDenied = false → rpc.dsname ≠ "url" →
      env.switchError = none → env.refreshError = none →
      (∀ m' ∈ env.modules, modHasConfigData m' = true →
        env.deleteError (deletePath m') = none) →
      List.count (Event.deleteItem (deletePath m))
        (op_deleteconfig urlCap env rpc sess st).trace = 1) := by
  constructor
  · intro hq
    apply op_deleteconfig_count_zero
    intro m' hm' hq' hpeq
    have hmm : m' = m := List.inj_on_of_nodup_map hnd hm' hm (deletePath_inj hpeq)
    rw [hmm, hq] at hq'
    exact Bool.noConfusion hq'
  · intro hq hp hdu hsw hre hok
    rw [op_deleteconfig_store urlCap env rpc sess st hp hdu]
    have hcnt : ∀ (tr0 : List Event),
        List.count (Event.deleteItem (deletePath m)) tr0 = 0 →
        List.count (Event.deleteItem (deletePath m))
          (deleteLoop env env.modules st (tr0 ++ [Event.sessionRefresh])).2.2 = 1 := by
      intro tr0 h0
      rw [deleteLoop_count_one env m env.modules st (tr0 ++ [Event.sessionRefresh])
        hnd hm hq hok]
      simp [List.count_append, h0]
    rcases storeFlow_cases env SR_DS_STARTUP sess st with
      ⟨sess', tr0, hcase, hS⟩ | ⟨e, _, hsw', _⟩
    · rw [hS]
      have h0 : List.count (Event.deleteItem (deletePath m)) tr0 = 0 := by
        rcases hcase with ⟨_, _, h⟩ | ⟨_, _, _, h⟩ <;> subst h <;> simp
      rcases afterSwitch_cases env sess' st tr0 with
        ⟨e, hre', _⟩ | ⟨_, ⟨rep, stL, trL, hL, hA⟩ | ⟨stL, trL, hL, ⟨e, _, hA⟩ | ⟨_, hA⟩⟩⟩
      · rw [hre] at hre'
        cases hre'
      · rw [hA]
        have h1 := hcnt tr0 h0
        rw [hL] at h1
        exact h1
      · rw [hA]
        have h1 := hcnt tr0 h0
        rw [hL] at h1
        have h1' : List.count (Event.deleteItem (deletePath m)) trL = 1 := h1
        show List.count (Event.deleteItem (deletePath m))
          (trL ++ [Event.commit, Event.discardChanges]) = 1
        rw [List.count_append, h1']
        simp
      · rw [hA]
        have h1 := hcnt tr0 h0
        rw [hL] at h1
        have h1' : List.count (Event.deleteItem (deletePath m)) trL = 1 := h1
        show List.count (Event.deleteItem (deletePath m))
          (trL ++ [Event.commit]) = 1
        rw [List.count_append, h1']
        simp
    · rw [hsw] at hsw'
      cases hsw'

/-- A registry with two configuration-bearing modules where the delete of
the first domain fails. -/
def envC6 : Env :=
  { permDenied := false, switchError := none, refreshError := none,
    deleteError := fun p =>
      if p == "/alpha:*" then some ⟨"application", "delete failed"⟩ else none,
    commitError := none, urlImportError := fun _ => none,
    urlInitError := fun _ => none,
    modules := [⟨"alpha", [⟨LYS_CONTAINER, LYS_CONFIG_W⟩]⟩,
                ⟨"beta", [⟨LYS_CONTAINER, LYS_CONFIG_W⟩]⟩] }

/-- C6 counterexample: `beta` is a qualifying domain of the registry, yet
when the delete of the earlier domain `alpha` fails the loop aborts and
no delete call at all is issued for `beta` - the original claim's
"exactly one delete per qualifying domain" fails on that run. -/
theorem C6_counterexample :
    (⟨"beta", [⟨LYS_CONTAINER, LYS_CONFIG_W⟩]⟩ : LysModule) ∈ envC6.modules ∧
    modHasConfigData ⟨"beta", [⟨LYS_CONTAINER, LYS_CONFIG_W⟩]⟩ = true ∧
    List.count (Event.deleteItem (deletePath ⟨"beta", [⟨LYS_CONTAINER, LYS_CONFIG_W⟩]⟩))
      (op_deleteconfig false envC6 ⟨"startup", none⟩ ⟨0⟩
        ⟨[("alpha", 1), ("beta", 2)], []⟩).trace = 0 := by
  refine ⟨by decide, by decide, by decide⟩

theorem C6_domain_skip_witness :
    (envAllOk.modules.map LysModule.name).Nodup ∧
      (⟨"ietf-interfaces", [⟨LYS_CONTAINER, LYS_CONFIG_W⟩]⟩ : LysModule) ∈
        envAllOk.modules ∧
      ((modHasConfigData ⟨"ietf-interfaces", [⟨LYS_CONTAINER, LYS_CONFIG_W⟩]⟩ = false →
        List.count (Event.deleteItem
            (deletePath ⟨"ietf-interfaces", [⟨LYS_CONTAINER, LYS_CONFIG_W⟩]⟩))
          (op_deleteconfig true envAllOk ⟨"startup", none⟩ ⟨0⟩
            ⟨[("ietf-interfaces", 3)], []⟩).trace = 0) ∧
       (modHasConfigData ⟨"ietf-interfaces", [⟨LYS_CONTAINER, LYS_CONFIG_W⟩]⟩ = true →
        envAllOk.permDenied = false → ("startup" : String) ≠ "url" →
        envAllOk.switchError = none → envAllOk.refreshError = none →
        (∀ m' ∈ envAllOk.modules, modHasConfigData m' = true →
          envAllOk.deleteError (deletePath m') = none) →
        List.count (Event.deleteItem
            (deletePath ⟨"ietf-interfaces", [⟨LYS_CONTAINER, LYS_CONFIG_W⟩]⟩))
          (op_deleteconfig true envAllOk ⟨"startup", none⟩ ⟨0⟩
            ⟨[("ietf-interfaces", 3)], []⟩).trace = 1)) :=
  ⟨by decide, by decide, C6_domain_skip true envAllOk ⟨"startup", none⟩ ⟨0⟩
    ⟨[("ietf-interfaces", 3)], []⟩ ⟨"ietf-interfaces", [⟨LYS_CONTAINER, LYS_CONFIG_W⟩]⟩
    (by decide) (by decide)⟩

/-- C1: atomicity of the bulk erase.  Starting from a connection with no
accumulated uncommitted changes, for every sequence of per-domain delete
outcomes: either the invocation succeeds and the committed store content
equals the original content with every qualifying domain cleared, or the
committed store content is unchanged; the uncommitted-change buffer is
always empty on return (discarded before any error is surfaced); and if
any traced per-domain delete call failed, the commit call was never
issued. -/
theorem C1_atomicity (urlCap : Bool) (env : Env) (rpc : Request) (sess : Sessions)
    (st : SrState) (hpend : st.pending = []) :
    (((op_deleteconfig urlCap env rpc sess st).ereply = some nc_server_reply_ok ∧
        (op_deleteconfig urlCap env rpc sess st).store.committed =
          eraseAllQualifying env.modules st.committed) ∨
      (op_deleteconfig urlCap env rpc sess st).store.committed = st.committed) ∧
    (op_deleteconfig urlCap env rpc sess st).store.pending = [] ∧
    ((∃ p e, Event.deleteItem p ∈ (op_deleteconfig urlCap env rpc sess st).trace ∧
        env.deleteError p = some e) →
      Event.commit ∉ (op_deleteconfig urlCap env rpc sess st).trace) := by
  rcases op_deleteconfig_cases urlCap env rpc sess st with
    ⟨_, hE⟩ | ⟨_, _, _, u, _, hE⟩ | ⟨_, _, _, _, hE⟩ | ⟨_, _, _, hE⟩ | ⟨_, _, hE⟩
  · rw [hE]
    exact ⟨Or.inr rfl, hpend, fun hex => by
      obtain ⟨p, e0, hmem, _⟩ := hex
      simp at hmem⟩
  · rw [hE]
    rcases urlFlow_cases env u sess st with
      ⟨e0, _, hU⟩ | ⟨_, ⟨e1, _, hU⟩ | ⟨_, hU⟩⟩ <;>
      rw [hU] <;>
      exact ⟨Or.inr rfl, hpend, fun hex => by
        obtain ⟨p, e', hmem, _⟩ := hex
        simp at hmem⟩
  · rw [hE]
    exact ⟨Or.inr rfl, hpend, fun hex => by
      obtain ⟨p, e0, hmem, _⟩ := hex
      simp at hmem⟩
  · rw [hE]
    exact ⟨Or.inr rfl, hpend, fun hex => by
      obtain ⟨p, e0, hmem, _⟩ := hex
      simp at hmem⟩
  · rw [hE]
    rcases storeFlow_cases env (if rpc.dsname == "startup" then SR_DS_STARTUP else 0)
        sess st with ⟨sess', tr0, hcase, hS⟩ | ⟨e, _, _, hS⟩
    · rw [hS]
      have htr0 : ∀ q, Event.deleteItem q ∉ tr0 ∧ Event.commit ∉ tr0 := by
        rcases hcase with ⟨_, _, h⟩ | ⟨_, _, _, h⟩ <;> subst h <;> intro q <;> simp
      rcases afterSwitch_cases env sess' st tr0 with
        ⟨e, _, hA⟩ | ⟨_, ⟨rep, stL, trL, hL, hA⟩ | ⟨stL, trL, hL, ⟨e, _, hA⟩ | ⟨_, hA⟩⟩⟩
      · rw [hA]
        refine ⟨Or.inr rfl, hpend, fun _ => ?_⟩
        intro hcm
        rcases List.mem_append.mp hcm with h | h
        · exact (htr0 "").2 h
        · simp at h
      · have hcom := deleteLoop_committed env env.modules st (tr0 ++ [Event.sessionRefresh])
        rw [hL] at hcom
        have hcom' : stL.committed = st.committed := hcom
        have hpen := deleteLoop_some_pending env env.modules st
          (tr0 ++ [Event.sessionRefresh]) rep (by rw [hL])
        rw [hL] at hpen
        have hpen' : stL.pending = [] := hpen
        obtain ⟨d, htr, hall⟩ := deleteLoop_trace env env.modules st
          (tr0 ++ [Event.sessionRefresh])
        rw [hL] at htr
        have htr' : trL = (tr0 ++ [Event.sessionRefresh]) ++ d := htr
        rw [hA]
        refine ⟨Or.inr hcom', hpen', fun _ => ?_⟩
        intro hcm
        show False
        rw [htr'] at hcm
        rcases List.mem_append.mp hcm with h | h
        · rcases List.mem_append.mp h with h' | h'
          · exact (htr0 "").2 h'
          · simp at h'
        · rcases hall _ h with ⟨p, h'⟩ | h' <;> exact Event.noConfusion h'
      · have hcom := deleteLoop_committed env env.modules st (tr0 ++ [Event.sessionRefresh])
        rw [hL] at hcom
        have hcom' : stL.committed = st.committed := hcom
        rw [hA]
        refine ⟨Or.inr hcom', rfl, fun hex => ?_⟩
        exfalso
        obtain ⟨p, e0, hmem, hde⟩ := hex
        have hmem' : Event.deleteItem p ∈ trL := by
          rcases List.mem_append.mp hmem with h | h
          · exact h
          · simp at h
        have := deleteLoop_none_deletes_ok env env.modules st
          (tr0 ++ [Event.sessionRefresh]) (by rw [hL]) p (by rw [hL]; exact hmem')
        rcases this with h | h
        · rcases List.mem_append.mp h with h' | h'
          · exact (htr0 p).1 h'
          · simp at h'
        · rw [h] at hde
          cases hde
      · have hcom := deleteLoop_committed env env.modules st (tr0 ++ [Event.sessionRefresh])
        rw [hL] at hcom
        have hcom' : stL.committed = st.committed := hcom
        have hpen := deleteLoop_none_pending env env.modules st
          (tr0 ++ [Event.sessionRefresh]) (by rw [hL])
        rw [hL] at hpen
        have hpen' : stL.pending = qualNames env.modules := by
          rw [show stL.pending = st.pending ++ qualNames env.modules from hpen, hpend]
          simp
        rw [hA]
        refine ⟨Or.inl ⟨rfl, ?_⟩, rfl, fun hex => ?_⟩
        · show (applyPending stL).committed = eraseAllQualifying env.modules st.committed
          simp only [applyPending, eraseAllQualifying]
          rw [hpen', hcom']
        · exfalso
          obtain ⟨p, e0, hmem, hde⟩ := hex
          have hmem' : Event.deleteItem p ∈ trL := by
            rcases List.mem_append.mp hmem with h | h
            · exact h
            · simp at h
          have := deleteLoop_none_deletes_ok env env.modules st
            (tr0 ++ [Event.sessionRefresh]) (by rw [hL]) p (by rw [hL]; exact hmem')
          rcases this with h | h
          · rcases List.mem_append.mp h with h' | h'
            · exact (htr0 p).1 h'
            · simp at h'
          · rw [h] at hde
            cases hde
    · rw [hS]
      refine ⟨Or.inr rfl, hpend, fun hex => by
        obtain ⟨p, e0, hmem, _⟩ := hex
        simp at hmem⟩

theorem C1_atomicity_witness :
    ((⟨[("ietf-interfaces", 3), ("state-mod", 4)], []⟩ : SrState).pending =
        ([] : List String)) ∧
      ((((op_deleteconfig true envAllOk ⟨"startup", none⟩ ⟨0⟩
            ⟨[("ietf-interfaces", 3), ("state-mod", 4)], []⟩).ereply =
              some nc_server_reply_ok ∧
          (op_deleteconfig true envAllOk ⟨"startup", none⟩ ⟨0⟩
            ⟨[("ietf-interfaces", 3), ("state-mod", 4)], []⟩).store.committed =
            eraseAllQualifying envAllOk.modules
              (⟨[("ietf-interfaces", 3), ("state-mod", 4)], []⟩ : SrState).committed) ∨
        (op_deleteconfig true envAllOk ⟨"startup", none⟩ ⟨0⟩
            ⟨[("ietf-interfaces", 3), ("state-mod", 4)], []⟩).store.committed =
          (⟨[("ietf-interfaces", 3), ("state-mod", 4)], []⟩ : SrState).committed) ∧
       (op_deleteconfig true envAllOk ⟨"startup", none⟩ ⟨0⟩
          ⟨[("ietf-interfaces", 3), ("state-mod", 4)], []⟩).store.pending = [] ∧
       ((∃ p e, Event.deleteItem p ∈ (op_deleteconfig true envAllOk ⟨"startup", none⟩
            ⟨0⟩ ⟨[("ietf-interfaces", 3), ("state-mod", 4)], []⟩).trace ∧
          envAllOk.deleteError p = some e) →
        Event.commit ∉ (op_deleteconfig true envAllOk ⟨"startup", none⟩ ⟨0⟩
          ⟨[("ietf-interfaces", 3), ("state-mod", 4)], []⟩).trace)) :=
  ⟨rfl, C1_atomicity true envAllOk ⟨"startup", none⟩ ⟨0⟩
    ⟨[("ietf-interfaces", 3), ("state-mod", 4)], []⟩ rfl⟩

end Netopeer2
